import Mathlib

/-!
Shallow embedding of the intent-resolution and scheduling-logic core of the
Calendar-Agent repository (src/services/openaiService.ts,
src/services/calendarService.ts), together with theorems settling the
specification claims about it.

Modelling conventions:
* A JavaScript `Date` instant is modelled as an integer number of milliseconds
  since the Unix epoch (`Int`).  The local time zone of the host is an explicit
  offset parameter `tz` in minutes east of UTC wherever the source calls a
  local-time accessor (`getHours`, `setHours`, ...).
* `CalendarEvent.start/end` carry `dateTime : Option Int` (a precise instant,
  already parsed from the ISO string the backend delivers) or
  `date : Option String` (a whole-day date).  `new Date(x).getTime()` on the
  dateTime string is the identity in this model.
* JavaScript truthiness on optional strings (`undefined` and `""` are falsy)
  is modelled by `truthy`.
* The regular-expression matches in the source are implemented as executable
  scanners over the character list, reproducing the leftmost-match,
  greedy-with-backtracking semantics of `String.prototype.match` for the three
  concrete patterns the source uses.
* Rendered-message strings are embedded verbatim where they are pure string
  concatenation; the locale-dependent candidate formatting of
  `formatEventOptions` (toLocaleTimeString/toLocaleDateString) is kept as the
  structured data it renders: the `multipleFound` result carries the candidate
  list and the match-type label that the source interpolates into the text.
-/

namespace CalendarAgent

/-- JS truthiness of an optional string: `undefined` and `""` are falsy. -/
def truthy : Option String → Bool
  | none => false
  | some s => !(s == "")

/-- JS `a || b` on optional strings: the first truthy operand, else `b`. -/
def jsOr (a b : Option String) : Option String :=
  if truthy a then a else b

/-- ASCII lowering of one character, as `String.prototype.toLowerCase` acts on
the ASCII range the source compares. -/
def lowerChar (c : Char) : Char :=
  if 'A' ≤ c ∧ c ≤ 'Z' then Char.ofNat (c.toNat + 32) else c

/-- `s.toLowerCase()` on the character list. -/
def lowerStr (s : String) : List Char := s.data.map lowerChar

/-- `needle` occurs at the head of `hay`. -/
def leadsWith : List Char → List Char → Bool
  | [], _ => true
  | _ :: _, [] => false
  | a :: as, b :: bs => a == b && leadsWith as bs

/-- `needle` occurs as a contiguous substring of `hay`
(JS `String.prototype.includes`). -/
def containsSub (hay needle : List Char) : Bool :=
  match hay with
  | [] => needle == []
  | _ :: t => leadsWith needle hay || containsSub t needle

/-- The time representation of one side of an event: exactly one of a precise
instant (`dateTime`, ms since epoch) or a whole-day date string. -/
structure EventTime where
  dateTime : Option Int := none
  date : Option String := none
deriving Repr, DecidableEq

/-- `CalendarEvent` of src/services/calendarService.ts.  Attendees are kept as
their email strings. -/
structure CalendarEvent where
  id : String
  summary : String
  description : Option String := none
  start : EventTime
  «end» : EventTime
  attendees : Option (List String) := none
  location : Option String := none
deriving Repr, DecidableEq

/-- An event participates in duration statistics exactly when both sides carry
a precise instant (`event.start.dateTime && event.end.dateTime`). -/
def isPreciseSpan (e : CalendarEvent) : Bool :=
  e.start.dateTime.isSome && e.«end».dateTime.isSome

/-- The precise (start, end) instant pairs of the events that have them. -/
def preciseSpans (events : List CalendarEvent) : List (Int × Int) :=
  events.filterMap fun e =>
    match e.start.dateTime, e.«end».dateTime with
    | some s, some t => some (s, t)
    | _, _ => none

/-- The UTC calendar day of an instant: `new Date(t).toISOString()` renders the
UTC date, so `toISOString().split('T')[0]` keys by the UTC day index (days
since 1970-01-01, in bijection with the `YYYY-MM-DD` string it formats). -/
def dayKeyUTC (t : Int) : Int := t.fdiv 86400000

/-- The calendar day of an instant in the local zone of the host (offset `tz`
minutes east of UTC).  Modelled from the spec: the spec states the per-day
keys are "the calendar date of the start instant of the event, in the local
zone"; the source has no such computation — this is the comparison point. -/
def dayKeyLocal (tz t : Int) : Int := (t + tz * 60000).fdiv 86400000

/-- Result record of `calculateMeetingStats`.  `meetingsByDay` is the count
map, read as a function from UTC day key to count. -/
structure MeetingStats where
  totalMeetings : Nat
  totalHours : ℚ
  averageMeetingDuration : ℚ
  meetingsByDay : Int → Nat

/-- Total minutes accumulated over the precise-span events
(`(end - start) / (1000*60)` summed). -/
def totalMinutesOf (events : List CalendarEvent) : ℚ :=
  ((preciseSpans events).map (fun p => ((p.2 - p.1 : Int) : ℚ) / 60000)).sum

/-- `calculateMeetingStats` of src/services/calendarService.ts: only events
with both precise instants add to `totalMinutes` and to the per-day map; the
meeting count is the raw list length; the average divides by that raw count
(guarding zero). -/
def calculateMeetingStats (events : List CalendarEvent) : MeetingStats :=
  { totalMeetings := events.length
    totalHours := totalMinutesOf events / 60
    averageMeetingDuration :=
      if events.length > 0 then totalMinutesOf events / events.length else 0
    meetingsByDay := fun k =>
      ((preciseSpans events).filter (fun p => dayKeyUTC p.1 == k)).length }

/-! ### The clock / duration / range regular expressions

The source matches three concrete patterns with `String.prototype.match`
(leftmost match, greedy quantifiers with backtracking):
* clock: `(\d{1,2})(?::(\d{2}))?\s*(am|pm)?` (case-insensitive),
* duration: `(\d+)\s*(minutes?|hours?|mins?|hrs?|h|m)` (case-insensitive),
* range: clock `\s*-\s*` clock.
Each is implemented below as a scanner over the character list that tries
every start position left to right and, within a position, enumerates the
quantifier choices in the order the regex engine does. -/

/-- Parsed clock fields: the hour digits, the optional `:MM` minutes, and the
optional meridiem (`false` = am, `true` = pm). -/
structure ClockParse where
  hour : Nat
  minute : Option Nat := none
  meridiem : Option Bool := none
deriving Repr, DecidableEq

/-- Numeric value of a digit run (`parseInt` on the matched digits). -/
def natOfDigits (ds : List Char) : Nat :=
  ds.foldl (fun a c => a * 10 + (c.toNat - 48)) 0

/-- Candidates of `\d{1,2}` at the head of `l`, greedy first: two digits when
available, then one. -/
def takeDigits2 (l : List Char) : List (Nat × List Char) :=
  match l with
  | c1 :: c2 :: rest =>
      if c1.isDigit then
        if c2.isDigit then
          [(natOfDigits [c1, c2], rest), (natOfDigits [c1], c2 :: rest)]
        else [(natOfDigits [c1], c2 :: rest)]
      else []
  | [c1] => if c1.isDigit then [(natOfDigits [c1], [])] else []
  | [] => []

/-- Candidates of the optional group `(?::(\d{2}))?`: the matched minutes
first when `:` and two digits are present, then the empty alternative. -/
def colonCands (l : List Char) : List (Option Nat × List Char) :=
  match l with
  | ':' :: a :: b :: rest =>
      if a.isDigit && b.isDigit then [(some (natOfDigits [a, b]), rest), (none, l)]
      else [(none, l)]
  | _ => [(none, l)]

/-- Greedy `\s*`. -/
def skipWs (l : List Char) : List Char := l.dropWhile Char.isWhitespace

/-- Candidates of `(am|pm)?` (case-insensitive): the matched meridiem first,
then the empty alternative. -/
def meridiemCands (l : List Char) : List (Option Bool × List Char) :=
  match l with
  | a :: m :: rest =>
      if lowerChar a == 'a' && lowerChar m == 'm' then [(some false, rest), (none, l)]
      else if lowerChar a == 'p' && lowerChar m == 'm' then [(some true, rest), (none, l)]
      else [(none, l)]
  | _ => [(none, l)]

/-- All ways the clock pattern can match at the head of `l`, in the regex
engine preference order, each with the remaining input. -/
def clockCands (l : List Char) : List (ClockParse × List Char) :=
  (takeDigits2 l).flatMap fun dh =>
    (colonCands dh.2).flatMap fun dm =>
      (meridiemCands (skipWs dm.2)).map fun dp =>
        (⟨dh.1, dm.1, dp.1⟩, dp.2)

/-- Leftmost match of the clock pattern in `l` (`s.match(timePattern)`). -/
def scanClock : List Char → Option ClockParse
  | [] => none
  | c :: t =>
      match clockCands (c :: t) with
      | p :: _ => some p.1
      | [] => scanClock t

/-- Leftmost clock match of a string. -/
def findClockMatch (s : String) : Option ClockParse := scanClock s.data

/-- The meridiem rule shared by every clock consumer in the source:
`pm` and hour ≠ 12 adds 12; `am` and hour = 12 gives 0. -/
def applyMeridiem (h : Nat) (mer : Option Bool) : Nat :=
  match mer with
  | some true => if h != 12 then h + 12 else h
  | some false => if h == 12 then 0 else h
  | none => h

/-- The unit alternatives of the duration pattern, in the alternation
order (with the greedy optional `s?` expanded). -/
def unitAlternatives : List String :=
  ["minutes", "minute", "hours", "hour", "mins", "min", "hrs", "hr", "h", "m"]

/-- First unit alternative matching at the head of `l` (case-insensitive). -/
def findUnit (l : List Char) : Option String :=
  unitAlternatives.find? fun u => leadsWith u.data (l.map lowerChar)

/-- Leftmost match of the duration pattern: at each start position whose
character is a digit, take the maximal digit run, skip whitespace, and try the
unit alternatives.  (Backtracking `\d+` to a shorter run can never succeed:
the next character would then be a digit, which no unit starts with.) -/
def scanDuration : List Char → Option (Nat × String)
  | [] => none
  | c :: t =>
      if c.isDigit then
        let ds := (c :: t).takeWhile Char.isDigit
        let r := skipWs ((c :: t).dropWhile Char.isDigit)
        match findUnit r with
        | some u => some (natOfDigits ds, u)
        | none => scanDuration t
      else scanDuration t

/-- `parseDurationToMinutes` of src/services/openaiService.ts: 60 when the
pattern finds nothing, else the magnitude times 60 when the unit starts with
`h`. -/
def parseDurationToMinutes (duration : String) : Nat :=
  match scanDuration duration.data with
  | none => 60
  | some (v, u) => if leadsWith "h".data u.data then v * 60 else v

/-- Leftmost match of the range pattern `clock \s*-\s* clock`: at each start
position, try the candidates of the first clock in order; after each, skip
whitespace, require `-`, skip whitespace, and match the second clock. -/
def tryRangeAt (l : List Char) : Option (ClockParse × ClockParse) :=
  (clockCands l).findSome? fun p1 =>
    match skipWs p1.2 with
    | '-' :: r3 =>
        match clockCands (skipWs r3) with
        | p2 :: _ => some (p1.1, p2.1)
        | [] => none
    | _ => none

/-- Scan of the range pattern over all start positions. -/
def scanRange : List Char → Option (ClockParse × ClockParse)
  | [] => none
  | c :: t =>
      match tryRangeAt (c :: t) with
      | some r => some r
      | none => scanRange t

/-- Leftmost range match of a string. -/
def findRangeMatch (s : String) : Option (ClockParse × ClockParse) :=
  scanRange s.data

/-! ### Date arithmetic in the local zone of the host -/

/-- `date.setHours(h, m, 0, 0)` on instant `t` with host offset `tz` minutes:
keep the local calendar day, replace the time of day.  Out-of-range hours roll
over exactly as in JS. -/
def setHoursLocal (tz t h m : Int) : Int :=
  86400000 * ((t + tz * 60000).fdiv 86400000) + h * 3600000 + m * 60000 - tz * 60000

/-- `getHours()` of an instant in the local zone of the host. -/
def getHoursLocal (tz t : Int) : Int := ((t + tz * 60000).fdiv 3600000).emod 24

/-- `getMinutes()` of an instant in the local zone of the host. -/
def getMinutesLocal (tz t : Int) : Int := ((t + tz * 60000).fdiv 60000).emod 60

/-- `parseTimeForDate` of src/services/openaiService.ts: apply the first clock
match of the string to the base date; no match returns the base date. -/
def parseTimeForDate (tz : Int) (dateTimeStr : String) (baseDate : Int) : Int :=
  match findClockMatch dateTimeStr with
  | some c => setHoursLocal tz baseDate (applyMeridiem c.hour c.meridiem) (c.minute.getD 0)
  | none => baseDate

/-- `parseDateTime` of src/services/openaiService.ts.  `jsParse` stands for
the implementation-defined `new Date(string)` literal parser (`none` when it
yields an invalid date); `now` is the current instant; "tomorrow" is one
calendar day later (the host-offset model has no DST, per the declared
non-goals).  Total: every branch returns an instant, `now` as last resort. -/
def parseDateTime (tz : Int) (jsParse : String → Option Int) (now : Int)
    (dateTimeStr : String) : Int :=
  if containsSub (lowerStr dateTimeStr) "today".data then
    parseTimeForDate tz dateTimeStr now
  else if containsSub (lowerStr dateTimeStr) "tomorrow".data then
    parseTimeForDate tz dateTimeStr (now + 86400000)
  else
    match jsParse dateTimeStr with
    | some t => t
    | none =>
        match findClockMatch dateTimeStr with
        | some _ => parseTimeForDate tz dateTimeStr now
        | none => now

/-- `parseTimeRange` of src/services/openaiService.ts: an explicit range
literal wins; else the named bands morning/afternoon/evening; else the
9:00–17:00 default.  Result is the (startTime, endTime) instant pair on
the local day of `date`. -/
def parseTimeRange (tz : Int) (timeRange : String) (date : Int) : Int × Int :=
  match findRangeMatch timeRange with
  | some (c1, c2) =>
      (setHoursLocal tz date (applyMeridiem c1.hour c1.meridiem) (c1.minute.getD 0),
       setHoursLocal tz date (applyMeridiem c2.hour c2.meridiem) (c2.minute.getD 0))
  | none =>
      let lt := lowerStr timeRange
      let hours : Int × Int :=
        if lt == "morning".data then (8, 12)
        else if lt == "afternoon".data then (12, 17)
        else if lt == "evening".data then (17, 21)
        else (9, 17)
      (setHoursLocal tz date hours.1 0, setHoursLocal tz date hours.2 0)

/-- `getConflictType` of src/services/openaiService.ts.  The overlap duration
is a real number of minutes in the source (float division by 60000); ℚ keeps
the comparisons exact. -/
def getConflictType (overlapDuration : ℚ) : String :=
  if overlapDuration ≥ 60 then "Major Conflict (1+ hour overlap)"
  else if overlapDuration ≥ 30 then "Significant Conflict (30+ minutes)"
  else if overlapDuration ≥ 15 then "Moderate Conflict (15+ minutes)"
  else "Minor Conflict (< 15 minutes)"

/-! ### Free-Slot Finder -/

/-- A computed free period (`{ start: Date; end: Date }`), ms instants. -/
structure TimeSlot where
  start : Int
  «end» : Int
deriving Repr, DecidableEq

/-- The event loop of `findFreeSlots`: before each event, emit one slot of
exactly the requested length when the gap to the cursor is at least that
length, then advance the cursor to `max(cursor, event.end)`.  The source
compares `(event.start - cursor) / 60000 >= durationMinutes` in real
arithmetic, which is `durMs ≤ event.start - cursor` with `durMs` the duration
in ms. -/
def sweep (durMs : Int) : Int → List (Int × Int) → List TimeSlot
  | _, [] => []
  | cursor, (s, t) :: rest =>
      (if durMs ≤ s - cursor then [⟨cursor, cursor + durMs⟩] else []) ++
        sweep durMs (max cursor t) rest

/-- The cursor after the sweep: the running `max(cursor, event.end)`. -/
def finalCursor (dayStart : Int) (ps : List (Int × Int)) : Int :=
  ps.foldl (fun c p => max c p.2) dayStart

/-- The (start, end) pairs of the events that pass the
`event.start.dateTime` filter, sorted ascending by start.  The source reads
`event.end.dateTime!` without checking it; an event with a precise start but
no precise end yields a NaN end in JS — the theorems below assume the data
model invariant (precise start ↔ precise end), under which the `getD 0`
never fires. -/
def sortedSpans (events : List CalendarEvent) : List (Int × Int) :=
  ((events.filter (fun e => e.start.dateTime.isSome)).map
      (fun e => (e.start.dateTime.getD 0, e.«end».dateTime.getD 0))).insertionSort
    (fun a b => a.1 ≤ b.1)

/-- `findFreeSlots` of src/services/openaiService.ts: sweep the sorted
precise-time events from `dayStart`, then emit one final slot when the
remainder up to `dayEnd` is long enough. -/
def findFreeSlots (events : List CalendarEvent) (dayStart dayEnd : Int)
    (durationMinutes : Int) : List TimeSlot :=
  let durMs := durationMinutes * 60000
  let sorted := sortedSpans events
  let fin := finalCursor dayStart sorted
  sweep durMs dayStart sorted ++
    (if durMs ≤ dayEnd - fin then [⟨fin, fin + durMs⟩] else [])

/-! ### Event Resolver -/

/-- Case-insensitive exact-title matches (`summary.toLowerCase() ===
searchLower`); `searchLower` is the already-lowered query characters. -/
def exactMatches (searchLower : List Char) (events : List CalendarEvent) :
    List CalendarEvent :=
  events.filter fun e => lowerStr e.summary == searchLower

/-- Bidirectional case-insensitive substring matches (source name
`partialMatches`): the title contains the query or the query contains the
title. -/
def subMatches (searchLower : List Char) (events : List CalendarEvent) :
    List CalendarEvent :=
  events.filter fun e =>
    containsSub (lowerStr e.summary) searchLower ||
      containsSub searchLower (lowerStr e.summary)

/-- `findEventsByTime` of src/services/openaiService.ts: parse a clock time
out of the query and keep the events whose precise start has that exact local
hour and minute. -/
def findEventsByTime (tz : Int) (searchQuery : String)
    (events : List CalendarEvent) : List CalendarEvent :=
  match findClockMatch searchQuery with
  | none => []
  | some c =>
      let sh := applyMeridiem c.hour c.meridiem
      let sm := c.minute.getD 0
      events.filter fun e =>
        match e.start.dateTime with
        | some t => getHoursLocal tz t == (sh : Int) && getMinutesLocal tz t == (sm : Int)
        | none => false

/-- Outcome of `resolveEvent`.  `found` and `notFound` carry the exact message
strings the source builds; `multipleFound` carries the candidate list and the
match-type label that `formatEventOptions` renders (its visual formatting is
locale-dependent presentation). -/
inductive Resolution where
  | found (eventId : String) (message : String)
  | multipleFound (candidates : List CalendarEvent) (matchType : String)
  | notFound (message : String)
deriving Repr, DecidableEq

/-- `resolveEvent` of src/services/openaiService.ts: a falsy query is
NotFound at once; otherwise exact-title, then bidirectional substring, then
time-of-day, each stage only entered when the previous produced zero
matches; one match resolves, several are ambiguous. -/
def resolveEvent (tz : Int) (searchQuery : Option String)
    (events : List CalendarEvent) : Resolution :=
  if !truthy searchQuery then
    .notFound "❌ Please specify which event you want to modify. You can mention the event title, time, or describe the event."
  else
    let q := searchQuery.getD ""
    let searchLower := lowerStr q
    match exactMatches searchLower events with
    | [e] => .found e.id ("Found event: " ++ e.summary)
    | [] =>
        match subMatches searchLower events with
        | [e] => .found e.id ("Found event: " ++ e.summary)
        | [] =>
            match findEventsByTime tz q events with
            | [e] => .found e.id ("Found event: " ++ e.summary)
            | [] =>
                .notFound ("❌ I couldn\u0027t find any events matching \"" ++ q ++
                  "\". Try being more specific with the event title or time.")
            | es => .multipleFound es "time matches"
        | es => .multipleFound es "partial title matches"
    | es => .multipleFound es "exact title matches"

/-! ### Operation Validators & Builders -/

/-- The argument bag of a chosen function call (one open map in the source;
all fields optional).  Arrays are present-or-absent (`some []` is a present,
truthy, empty array in JS). -/
structure FnArgs where
  summary : Option String := none
  description : Option String := none
  startTime : Option String := none
  endTime : Option String := none
  duration : Option String := none
  attendees : Option (List String) := none
  location : Option String := none
  eventId : Option String := none
  eventTitle : Option String := none
  timeframe : Option String := none
  filter : Option String := none
  recipients : Option (List String) := none
  focusArea : Option String := none
  preferredDate : Option String := none
  preferredTimeRange : Option String := none
deriving Repr, DecidableEq

/-- `seemsLikeMeeting`: keyword containment over the lowered title. -/
def meetingKeywords : List String :=
  ["meeting", "meet", "call", "conference", "discussion", "review", "standup",
   "sync", "check-in", "checkin", "interview", "presentation", "demo",
   "workshop", "training", "brainstorm", "planning", "retrospective",
   "1:1", "one-on-one", "team", "client", "customer", "stakeholder"]

/-- `seemsLikeMeeting` of src/services/openaiService.ts. -/
def seemsLikeMeeting (summary : String) : Bool :=
  meetingKeywords.any fun k => containsSub (lowerStr summary) k.data

/-- The email shape check `^[^\s@]+@[^\s@]+\.[^\s@]+$`: exactly one `@`, a
nonempty whitespace-free local part, and a whitespace-free domain containing
a `.` that is neither its first nor its last character. -/
def isValidEmail (email : String) : Bool :=
  match email.data.splitOn '@' with
  | [l, r] =>
      !l.isEmpty && l.all (fun c => !c.isWhitespace) &&
        !r.isEmpty && r.all (fun c => !c.isWhitespace) &&
        ((r.drop 1).dropLast.contains '.')
  | _ => false

/-- Validation outcome: a flag and the clarification message (empty when
valid). -/
structure ValidationResult where
  isValid : Bool
  message : String
deriving Repr, DecidableEq

/-- `missing.forEach((field, index) => message += "{index+1}. {field}\n")`. -/
def numberedLines (l : List String) : String :=
  String.join (l.enum.map fun p => toString (p.1 + 1) ++ ". " ++ p.2 ++ "\n")

/-- `validateEventCreation` of src/services/openaiService.ts. -/
def validateEventCreation (args : FnArgs) : ValidationResult :=
  let missing : List String :=
    (if !truthy args.summary then ["event title (what\u0027s the event called?)"] else []) ++
    (if !truthy args.startTime then ["start time (when should the event begin?)"] else []) ++
    (if !truthy args.endTime && !truthy args.duration then
      ["end time or duration (how long should it last?)"] else []) ++
    (if truthy args.summary && seemsLikeMeeting (args.summary.getD "") &&
        args.attendees.isNone then
      ["attendee emails (who should be invited to this meeting?)"] else []) ++
    (match args.attendees with
     | some l =>
         let invalid := l.filter fun e => !isValidEmail e
         if !invalid.isEmpty then
           ["valid email addresses for attendees (invalid: " ++
             String.intercalate ", " invalid ++ ")"]
         else []
     | none => [])
  if !missing.isEmpty then
    { isValid := false
      message :=
        "❓ **I need a few more details to create your event:**\n\n" ++
          numberedLines missing ++
          (if missing.any (fun f => containsSub f.data "email".data) then
            "\n💡 **Example with valid emails:** \"Create a team meeting tomorrow at 2pm for 1 hour with john@example.com, sarah@company.com\"" ++
              "\n💡 **Note:** Please provide full email addresses (e.g., john.doe@company.com)"
          else
            "\n💡 **Example:** \"Create a team meeting tomorrow at 2pm for 1 hour\"" ++
              "\n💡 **Or:** \"Schedule a call with John today at 3pm until 4pm\"") }
  else { isValid := true, message := "" }

/-- `validateEventUpdate` of src/services/openaiService.ts. -/
def validateEventUpdate (args : FnArgs) : ValidationResult :=
  let hasIdent := truthy args.eventId || truthy args.eventTitle || truthy args.summary
  let hasUpdateFields := truthy args.summary || truthy args.description ||
    truthy args.startTime || truthy args.endTime || args.attendees.isSome ||
    truthy args.location || truthy args.duration
  let missing : List String :=
    (if !hasIdent then ["event identification (which event do you want to update?)"] else []) ++
    (if !hasUpdateFields then ["update details (what do you want to change?)"] else [])
  if !missing.isEmpty then
    { isValid := false
      message :=
        "❓ **I need more information to update your event:**\n\n" ++
          numberedLines missing ++
          "\n💡 **Example:** \"Update the team meeting to 3pm\"" ++
          "\n💡 **Or:** \"Move my call with John to tomorrow at 2pm\"" ++
          "\n💡 **Or:** \"Change the team standup location to Conference Room B\"" }
  else { isValid := true, message := "" }

/-- `validateEventDelete` of src/services/openaiService.ts. -/
def validateEventDelete (args : FnArgs) : ValidationResult :=
  let hasIdent := truthy args.eventId || truthy args.eventTitle || truthy args.summary
  let missing : List String :=
    if !hasIdent then ["event identification (which event do you want to delete?)"] else []
  if !missing.isEmpty then
    { isValid := false
      message :=
        "❓ **I need to know which event to delete:**\n\n" ++
          numberedLines missing ++
          "\n💡 **Example:** \"Delete the team meeting\"" ++
          "\n💡 **Or:** \"Cancel my 2pm call\"" ++
          "\n💡 **Or:** \"Remove the dentist appointment\"" }
  else { isValid := true, message := "" }

/-- The operation payload an update or create sends to the backend.  `none`
on a field means the field is absent from the payload object. -/
structure EventPayload where
  summary : Option String := none
  description : Option String := none
  start : Option EventTime := none
  «end» : Option EventTime := none
  attendees : Option (List String) := none
  location : Option String := none
deriving Repr, DecidableEq

/-- The payload-assembly phase of `updateCalendarEvent` (lines 1160–1227),
given the already-fetched existing event.  The existing duration is kept in
ms (`(end-start)/60000` minutes times `60*1000` back, exact); the 60-minute
default applies when either existing instant is imprecise. -/
def buildUpdatePayload (tz : Int) (jsParse : String → Option Int) (now : Int)
    (args : FnArgs) (existing : CalendarEvent) : EventPayload :=
  let existingDurationMs : Int :=
    match existing.start.dateTime, existing.«end».dateTime with
    | some s, some t => t - s
    | _, _ => 3600000
  let base : EventPayload :=
    { summary := jsOr args.summary (some existing.summary)
      description := jsOr args.description existing.description
      attendees :=
        match args.attendees with
        | some l => some l
        | none => existing.attendees
      location :=
        if truthy args.location then args.location
        else if truthy existing.location then existing.location
        else none }
  let withTimes : EventPayload :=
    if truthy args.startTime then
      let newStart := parseDateTime tz jsParse now (args.startTime.getD "")
      let b := { base with start := some ⟨some newStart, none⟩ }
      if !truthy args.endTime && !truthy args.duration then
        { b with «end» := some ⟨some (newStart + existingDurationMs), none⟩ }
      else b
    else if truthy args.endTime then
      { base with
        start := some existing.start
        «end» := some ⟨some (parseDateTime tz jsParse now (args.endTime.getD "")), none⟩ }
    else
      { base with start := some existing.start, «end» := some existing.«end» }
  if truthy args.duration && truthy args.startTime then
    let s := parseDateTime tz jsParse now (args.startTime.getD "")
    { withTimes with
      «end» := some ⟨some (s + (parseDurationToMinutes (args.duration.getD "") : Int) * 60000), none⟩ }
  else withTimes

/-- The pure prefix of `updateCalendarEvent`: validation, then resolution;
`proceed` is reached exactly when a unique event was resolved (the backend
fetch/update that follows is external). -/
inductive UpdateOutcome where
  | clarification (message : String)
  | resolutionFailed (res : Resolution)
  | proceed (eventId : String)
deriving Repr, DecidableEq

/-- The validate-then-resolve prefix of `updateCalendarEvent`; the
identification string is `args.eventId || args.eventTitle || args.summary`. -/
def updateCalendarEventOutcome (tz : Int) (args : FnArgs)
    (events : List CalendarEvent) : UpdateOutcome :=
  let v := validateEventUpdate args
  if !v.isValid then .clarification v.message
  else
    match resolveEvent tz (jsOr (jsOr args.eventId args.eventTitle) args.summary) events with
    | .found id _ => .proceed id
    | r => .resolutionFailed r

/-- The validate-then-resolve prefix of `deleteCalendarEvent`; same
identification expression as update. -/
def deleteCalendarEventOutcome (tz : Int) (args : FnArgs)
    (events : List CalendarEvent) : UpdateOutcome :=
  let v := validateEventDelete args
  if !v.isValid then .clarification v.message
  else
    match resolveEvent tz (jsOr (jsOr args.eventId args.eventTitle) args.summary) events with
    | .found id _ => .proceed id
    | r => .resolutionFailed r

/-- The pure prefix of `createCalendarEvent`: validation, then payload
assembly.  When `endTime` is absent the source serializes
`start + duration*60000` to an ISO string and re-parses it, which round-trips
to that instant. -/
inductive CreateOutcome where
  | clarification (message : String)
  | proceed (payload : EventPayload)
deriving Repr, DecidableEq

/-- The validate-then-build prefix of `createCalendarEvent`. -/
def createCalendarEventOutcome (tz : Int) (jsParse : String → Option Int)
    (now : Int) (args : FnArgs) : CreateOutcome :=
  let v := validateEventCreation args
  if !v.isValid then .clarification v.message
  else
    let startI := parseDateTime tz jsParse now (args.startTime.getD "")
    let endI :=
      if truthy args.endTime then parseDateTime tz jsParse now (args.endTime.getD "")
      else
        startI +
          (if truthy args.duration then
            (parseDurationToMinutes (args.duration.getD "") : Int)
          else 60) * 60000
    .proceed
      { summary := args.summary
        description := jsOr args.description (some "")
        start := some ⟨some startI, none⟩
        «end» := some ⟨some endI, none⟩
        attendees := args.attendees
        location := if truthy args.location then args.location else none }

/-! ### Dispatcher -/

/-- Where the switch of `handleFunctionCall` routes a named call, carrying the
argument fields each case reads (the case bodies themselves are the
operations modelled above). -/
inductive RoutedCall where
  | generateEmailDrafts (recipients : Option (List String))
  | analyzeMeetingTime (timeframe : Option String)
  | provideRecommendations (focusArea : Option String)
  | findConflictsCall (timeframe : Option String)
  | findAvailableTimeSlots (args : FnArgs)
  | createCalendarEvent (args : FnArgs)
  | updateCalendarEvent (args : FnArgs)
  | deleteCalendarEvent (args : FnArgs)
  | listUpcomingEvents (timeframe filter : Option String)
  | unknown
deriving Repr, DecidableEq

/-- `handleFunctionCall` of src/services/openaiService.ts: `rawArgs = none`
models a string argument payload on which `JSON.parse` threw — the catch
substitutes the empty bag — then the switch routes by name, with the default
branch for unknown names. -/
def handleFunctionCall (name : String) (rawArgs : Option FnArgs) : RoutedCall :=
  let parsedArgs := rawArgs.getD {}
  if name == "generate_email_drafts" then .generateEmailDrafts parsedArgs.recipients
  else if name == "analyze_meeting_time" then .analyzeMeetingTime parsedArgs.timeframe
  else if name == "provide_recommendations" then .provideRecommendations parsedArgs.focusArea
  else if name == "find_conflicts" then .findConflictsCall parsedArgs.timeframe
  else if name == "find_available_time_slots" then .findAvailableTimeSlots parsedArgs
  else if name == "create_calendar_event" then .createCalendarEvent parsedArgs
  else if name == "update_calendar_event" then .updateCalendarEvent parsedArgs
  else if name == "delete_calendar_event" then .deleteCalendarEvent parsedArgs
  else if name == "list_upcoming_events" then
    .listUpcomingEvents parsedArgs.timeframe parsedArgs.filter
  else .unknown

/-! ### Conflict Detector (`findConflicts`) -/

/-- `getLocalEventTime` of src/services/openaiService.ts: a precise
`dateTime` is the instant itself; a whole-day `date` string goes through the
host's date parser (the `jsDate` oracle, total — the NaN instant of an
invalid date string lies outside this model and is never exercised by the
theorems); with neither, the current instant. -/
def getLocalEventTime (jsDate : String → Int) (now : Int) (et : EventTime) : Int :=
  match et.dateTime with
  | some t => t
  | none =>
      match et.date with
      | some d => jsDate d
      | none => now

/-- One reported conflict: the two overlapping events, the overlap length in
minutes, and its severity label.  The Markdown rendering of the list is
locale-dependent presentation; the entry carries the information it shows. -/
structure ConflictEntry where
  event1 : CalendarEvent
  event2 : CalendarEvent
  overlapDuration : ℚ
  conflictType : String
deriving Repr, DecidableEq

/-- The ordered all-pairs overlap scan of `findConflicts` (each event against
every later event of the sorted list, paired when
`max(starts) < min(ends)`); the triple carries the event and its local start
and end instants. -/
def conflictPairs : List (CalendarEvent × Int × Int) → List ConflictEntry
  | [] => []
  | a :: rest =>
      (rest.filterMap fun b =>
        let os := max a.2.1 b.2.1
        let oe := min a.2.2 b.2.2
        if os < oe then
          some ⟨a.1, b.1, ((oe - os : Int) : ℚ) / 60000,
            getConflictType (((oe - os : Int) : ℚ) / 60000)⟩
        else none) ++ conflictPairs rest

/-- `findConflicts` of src/services/openaiService.ts.  The switch scrutinee
`timeframe.toLowerCase()` is dereferenced before any filtering, so an absent
timeframe (as the empty argument bag supplies) raises a TypeError — modelled
as `Except.error`, the operation returning no normal response.  Otherwise
the events are filtered by the keyword (`today` and `tomorrow` compare the
local calendar date; `week`, `this week` and `month` bound the start
instant; anything else keeps all events), the precise-time ones are sorted
by local start, and the overlapping pairs are reported.  `today` (the local
midnight of the host clock) and `monthEnd` (the last day of the current
calendar month) are environment inputs derived from the host clock, passed
as parameters like `now`. -/
def findConflicts (tz : Int) (jsDate : String → Int) (now today monthEnd : Int)
    (timeframe : Option String) (events : List CalendarEvent) :
    Except String (List ConflictEntry) :=
  match timeframe with
  | none => .error "TypeError"
  | some tf =>
      let tomorrow := today + 86400000
      let weekEnd := today + 7 * 86400000
      let lt := lowerStr tf
      let timeframeEvents :=
        if lt == "today".data then
          events.filter fun e =>
            dayKeyLocal tz (getLocalEventTime jsDate now e.start) == dayKeyLocal tz today
        else if lt == "tomorrow".data then
          events.filter fun e =>
            dayKeyLocal tz (getLocalEventTime jsDate now e.start) == dayKeyLocal tz tomorrow
        else if lt == "week".data || lt == "this week".data then
          events.filter fun e =>
            decide (today ≤ getLocalEventTime jsDate now e.start ∧
              getLocalEventTime jsDate now e.start ≤ weekEnd)
        else if lt == "month".data then
          events.filter fun e =>
            decide (today ≤ getLocalEventTime jsDate now e.start ∧
              getLocalEventTime jsDate now e.start ≤ monthEnd)
        else events
      let sorted :=
        ((timeframeEvents.filter (fun e => e.start.dateTime.isSome)).map fun e =>
            (e, getLocalEventTime jsDate now e.start,
              getLocalEventTime jsDate now e.«end»)).insertionSort
          (fun a b => a.2.1 ≤ b.2.1)
      .ok (conflictPairs sorted)

/-! ### Concrete sample data used by witnesses and counterexamples -/

/-- "Team Sync", 10:00–10:30 UTC on 1970-01-01 (a 30-minute meeting). -/
def teamSync : CalendarEvent :=
  { id := "id1", summary := "Team Sync"
    start := ⟨some 36000000, none⟩, «end» := ⟨some 37800000, none⟩ }

/-- "Sync with Bob", 14:00–14:30 UTC on 1970-01-01. -/
def syncBob : CalendarEvent :=
  { id := "id2", summary := "Sync with Bob"
    start := ⟨some 50400000, none⟩, «end» := ⟨some 52200000, none⟩ }

/-- A whole-day event (date strings, no precise instants). -/
def wholeDayEvt : CalendarEvent :=
  { id := "hol", summary := "Holiday"
    start := ⟨none, some "2024-01-01"⟩, «end» := ⟨none, some "2024-01-02"⟩ }

/-- Event starting 23:30 UTC Jan 1 1970 (00:30 Jan 2 at offset +60 min). -/
def lateNightEvt : CalendarEvent :=
  { id := "ln", summary := "Late"
    start := ⟨some 84600000, none⟩, «end» := ⟨some 85200000, none⟩ }

/-- Event starting 01:00 UTC Jan 2 1970 (02:00 Jan 2 at offset +60 min). -/
def earlyMorningEvt : CalendarEvent :=
  { id := "em", summary := "Early"
    start := ⟨some 90000000, none⟩, «end» := ⟨some 91800000, none⟩ }

/-- Event 11:00–11:30 UTC, inside the 8:00–12:00 day window. -/
def midMorningEvt : CalendarEvent :=
  { id := "mm", summary := "Mid"
    start := ⟨some 39600000, none⟩, «end» := ⟨some 41400000, none⟩ }

/-- Event 20:00–21:00 UTC, on the same date but after the 12:00 window end. -/
def eveningEvt : CalendarEvent :=
  { id := "ev", summary := "Evening"
    start := ⟨some 72000000, none⟩, «end» := ⟨some 75600000, none⟩ }

/-- Event 10:00–11:00 UTC, inside the 9:00–17:00 day window. -/
def tenToElevenEvt : CalendarEvent :=
  { id := "te", summary := "Ten"
    start := ⟨some 36000000, none⟩, «end» := ⟨some 39600000, none⟩ }

/-- Update request carrying only a new start time. -/
def newStartOnlyArgs : FnArgs := { startTime := some "14:00" }

/-- Update request carrying both a new start time and a new end time. -/
def bothTimesArgs : FnArgs := { startTime := some "14:00", endTime := some "15:00" }

end CalendarAgent

namespace CalendarAgent

/-! ## Theorems settling the claims -/

/-- C5: for every overlap length in minutes, the conflict severity uses
inclusive lower bounds evaluated highest-first — overlap ≥ 60 is the major
label, 30 ≤ overlap < 60 significant, 15 ≤ overlap < 30 moderate,
overlap < 15 minor — and in particular 60 → major, 59 → significant,
30 → significant, 29 → moderate, 15 → moderate, 14 → minor. -/
theorem conflict_severity_thresholds (m : ℚ) :
    (60 ≤ m → getConflictType m = "Major Conflict (1+ hour overlap)") ∧
    (30 ≤ m → m < 60 → getConflictType m = "Significant Conflict (30+ minutes)") ∧
    (15 ≤ m → m < 30 → getConflictType m = "Moderate Conflict (15+ minutes)") ∧
    (m < 15 → getConflictType m = "Minor Conflict (< 15 minutes)") ∧
    getConflictType 60 = "Major Conflict (1+ hour overlap)" ∧
    getConflictType 59 = "Significant Conflict (30+ minutes)" ∧
    getConflictType 30 = "Significant Conflict (30+ minutes)" ∧
    getConflictType 29 = "Moderate Conflict (15+ minutes)" ∧
    getConflictType 15 = "Moderate Conflict (15+ minutes)" ∧
    getConflictType 14 = "Minor Conflict (< 15 minutes)" := by
  unfold getConflictType
  refine ⟨?_, ?_, ?_, ?_, by norm_num, by norm_num, by norm_num, by norm_num,
    by norm_num, by norm_num⟩
  · intro h; rw [if_pos (by exact_mod_cast h)]
  · intro h1 h2
    rw [if_neg (by push_neg; exact h2), if_pos (by exact_mod_cast h1)]
  · intro h1 h2
    rw [if_neg (by push_neg; linarith), if_neg (by push_neg; exact h2),
      if_pos (by exact_mod_cast h1)]
  · intro h
    rw [if_neg (by push_neg; linarith), if_neg (by push_neg; linarith),
      if_neg (by push_neg; exact h)]

/-- Witness for C5: the major boundary, concretely. -/
theorem conflict_severity_thresholds_witness :
    getConflictType 60 = "Major Conflict (1+ hour overlap)" :=
  (conflict_severity_thresholds 60).1 (by norm_num)

/-- Helper: filtering to the precise-span events does not change the list of
precise (start, end) pairs. -/
theorem preciseSpans_filter (events : List CalendarEvent) :
    preciseSpans (events.filter isPreciseSpan) = preciseSpans events := by
  induction events with
  | nil => rfl
  | cons e es ih =>
      unfold preciseSpans at *
      rcases hs : e.start.dateTime with _ | s <;>
        rcases ht : e.«end».dateTime with _ | t <;>
          simp [List.filter_cons, isPreciseSpan, hs, ht, ih]

/-- Helper: splitting a list length by a predicate. -/
theorem length_filter_split (p : CalendarEvent → Bool) (events : List CalendarEvent) :
    events.length = (events.filter p).length + (events.filter (fun e => !p e)).length := by
  induction events with
  | nil => rfl
  | cons e es ih =>
      by_cases h : p e <;> simp [List.filter_cons, h, ih] <;> omega

/-- C3 (corrected): whole-day events are invisible to the duration totals and
to the per-day counts — removing them changes neither `totalHours` nor any
`meetingsByDay` entry — but they are *not* invisible to the whole statistics:
`totalMeetings` is the raw list length (so it drops by the number of
whole-day events removed), and the average divides the precise-span minutes
by that raw length. -/
theorem stats_wholeday_invisibility (events : List CalendarEvent) :
    (calculateMeetingStats (events.filter isPreciseSpan)).totalHours =
      (calculateMeetingStats events).totalHours ∧
    (∀ k, (calculateMeetingStats (events.filter isPreciseSpan)).meetingsByDay k =
      (calculateMeetingStats events).meetingsByDay k) ∧
    (calculateMeetingStats events).totalMeetings =
      (calculateMeetingStats (events.filter isPreciseSpan)).totalMeetings +
        (events.filter (fun e => !isPreciseSpan e)).length := by
  refine ⟨?_, ?_, ?_⟩
  · simp [calculateMeetingStats, totalMinutesOf, preciseSpans_filter]
  · intro k; simp [calculateMeetingStats, preciseSpans_filter]
  · simpa [calculateMeetingStats] using length_filter_split isPreciseSpan events

/-- C3 counterexample: with the 30-minute "Team Sync" and one whole-day
event, removing the whole-day event changes both the total meeting count
(2 → 1) and the average duration (15 → 30 minutes), refuting the claim that
whole-day events contribute to no component of the statistics. -/
theorem stats_wholeday_counterexample :
    isPreciseSpan wholeDayEvt = false ∧
    (calculateMeetingStats [teamSync, wholeDayEvt]).totalMeetings ≠
      (calculateMeetingStats [teamSync]).totalMeetings ∧
    (calculateMeetingStats [teamSync, wholeDayEvt]).averageMeetingDuration ≠
      (calculateMeetingStats [teamSync]).averageMeetingDuration ∧
    (calculateMeetingStats [teamSync, wholeDayEvt]).averageMeetingDuration = 15 ∧
    (calculateMeetingStats [teamSync]).averageMeetingDuration = 30 := by
  have h1 : preciseSpans [teamSync, wholeDayEvt] = [(36000000, 37800000)] := by decide
  have h2 : preciseSpans [teamSync] = [(36000000, 37800000)] := by decide
  refine ⟨rfl, by decide, ?_, ?_, ?_⟩
  · simp [calculateMeetingStats, totalMinutesOf, h1, h2]
    norm_num
  · simp [calculateMeetingStats, totalMinutesOf, h1]
    norm_num
  · simp [calculateMeetingStats, totalMinutesOf, h2]
    norm_num

/-- C7 (corrected): a precise event is keyed under the *UTC* calendar day of
its start instant — it contributes a positive count there, and a singleton
list counts zero under every other key. -/
theorem per_day_key_is_utc_day (events : List CalendarEvent) (e : CalendarEvent)
    (s : Int) (hmem : e ∈ events) (hs : e.start.dateTime = some s)
    (hp : isPreciseSpan e = true) :
    0 < (calculateMeetingStats events).meetingsByDay (dayKeyUTC s) ∧
    (∀ k, k ≠ dayKeyUTC s → (calculateMeetingStats [e]).meetingsByDay k = 0) := by
  have ht : ∃ t, e.«end».dateTime = some t := by
    unfold isPreciseSpan at hp
    rcases h : e.«end».dateTime with _ | t
    · rw [h] at hp; simp [hs] at hp
    · exact ⟨t, rfl⟩
  rcases ht with ⟨t, ht⟩
  constructor
  · have hpair : (s, t) ∈ preciseSpans events := by
      unfold preciseSpans
      exact List.mem_filterMap.mpr ⟨e, hmem, by rw [hs, ht]⟩
    have hmemf : (s, t) ∈ (preciseSpans events).filter
        (fun p => dayKeyUTC p.1 == dayKeyUTC s) :=
      List.mem_filter.mpr ⟨hpair, by simp⟩
    simpa only [calculateMeetingStats] using List.length_pos_of_mem hmemf
  · intro k hk
    have h1 : preciseSpans [e] = [(s, t)] := by
      simp [preciseSpans, hs, ht]
    have h2 : (dayKeyUTC s == k) = false := beq_eq_false_iff_ne.mpr (Ne.symm hk)
    simp [calculateMeetingStats, h1, h2]

/-- Witness for C7's amended theorem: "Team Sync" starts at instant 36000000
(UTC day 0) and is counted under key 0. -/
theorem per_day_key_is_utc_day_witness :
    0 < (calculateMeetingStats [teamSync]).meetingsByDay (dayKeyUTC 36000000) ∧
    (calculateMeetingStats [teamSync]).meetingsByDay 1 = 0 :=
  ⟨(per_day_key_is_utc_day [teamSync] teamSync 36000000 (by decide) rfl rfl).1,
   (per_day_key_is_utc_day [teamSync] teamSync 36000000 (by decide) rfl rfl).2 1 (by decide)⟩

/-- C7 counterexample: at host offset +60 minutes, the 23:30 UTC event and
the 01:00 UTC event both start on *local* calendar day 1 (1970-01-02), yet
the statistics key them under UTC days 0 and 1 respectively: the per-day map
holds one entry under each key instead of both sharing the local date's key,
refuting "keys are the calendar date of the start instant in the host's
local time zone". -/
theorem per_day_key_counterexample :
    dayKeyLocal 60 84600000 = 1 ∧ dayKeyLocal 60 90000000 = 1 ∧
    dayKeyUTC 84600000 = 0 ∧ dayKeyUTC 90000000 = 1 ∧
    (calculateMeetingStats [lateNightEvt, earlyMorningEvt]).meetingsByDay 1 = 1 ∧
    (calculateMeetingStats [lateNightEvt, earlyMorningEvt]).meetingsByDay 0 = 1 := by
  refine ⟨by decide, by decide, by decide, by decide, by decide, by decide⟩

/-- C10 (corrected): a function-call payload whose string arguments fail
JSON parsing is replaced by the empty argument bag (`rawArgs = none`, the
catch branch) and the *dispatcher* itself never raises — routing proceeds
for every operation name; create/update/delete then return their normal
missing-information clarification (validation fails on the empty bag).  But
the routed operation does not always answer normally: `find_conflicts`
dereferences `timeframe.toLowerCase()` and raises a TypeError on the absent
timeframe the empty bag supplies (`generate_email_drafts` likewise on
`recipients.forEach`, outside this embedding), so the operation errors
instead of clarifying, for every environment and event list. -/
theorem dispatcher_bad_json_clarifies (events : List CalendarEvent) (tz : Int)
    (jsParse : String → Option Int) (now : Int) :
    handleFunctionCall "update_calendar_event" none = .updateCalendarEvent {} ∧
    handleFunctionCall "create_calendar_event" none = .createCalendarEvent {} ∧
    handleFunctionCall "delete_calendar_event" none = .deleteCalendarEvent {} ∧
    handleFunctionCall "find_conflicts" none = .findConflictsCall none ∧
    handleFunctionCall "generate_email_drafts" none = .generateEmailDrafts none ∧
    updateCalendarEventOutcome tz {} events =
      .clarification (validateEventUpdate {}).message ∧
    deleteCalendarEventOutcome tz {} events =
      .clarification (validateEventDelete {}).message ∧
    createCalendarEventOutcome tz jsParse now {} =
      .clarification (validateEventCreation {}).message ∧
    (validateEventUpdate {}).isValid = false ∧
    (validateEventDelete {}).isValid = false ∧
    (validateEventCreation {}).isValid = false ∧
    (∀ (tz2 : Int) (jsDate : String → Int) (now2 today monthEnd : Int)
      (events2 : List CalendarEvent),
      findConflicts tz2 jsDate now2 today monthEnd none events2 = .error "TypeError") :=
  ⟨rfl, rfl, rfl, rfl, rfl, rfl, rfl, rfl, rfl, rfl, rfl,
   fun _ _ _ _ _ _ => rfl⟩

/-- C10 counterexample: with a bad-JSON payload, `find_conflicts` is routed
with no timeframe and the operation raises a TypeError (surfaced upstream by
the generic catch) — not its normal response — refuting "the named
operation ... returns that operation's normal missing-information/
clarification response rather than an exception" as a statement about every
operation. -/
theorem dispatcher_bad_json_counterexample :
    handleFunctionCall "find_conflicts" none = .findConflictsCall none ∧
    findConflicts 0 (fun _ => 0) 0 0 0 none [teamSync, syncBob] = .error "TypeError" :=
  ⟨rfl, rfl⟩

/-- C8: the time, duration and range parsers are total functions of their
string input (every branch returns a value; nothing throws) and fall back to
safe defaults — 60 minutes when no magnitude-plus-unit pattern matches, the
09:00–17:00 band when neither a range literal nor a named band matches, and
the current instant when no date word, no literal date and no clock pattern
matches — together with the concrete duration evaluations the spec lists. -/
theorem parsers_never_fail_defaults :
    (∀ s : String, scanDuration s.data = none → parseDurationToMinutes s = 60) ∧
    (∀ (tz d : Int) (s : String), findRangeMatch s = none →
      (lowerStr s == "morning".data) = false →
      (lowerStr s == "afternoon".data) = false →
      (lowerStr s == "evening".data) = false →
      parseTimeRange tz s d = (setHoursLocal tz d 9 0, setHoursLocal tz d 17 0)) ∧
    (∀ (tz : Int) (jsParse : String → Option Int) (now : Int) (s : String),
      containsSub (lowerStr s) "today".data = false →
      containsSub (lowerStr s) "tomorrow".data = false →
      jsParse s = none → findClockMatch s = none →
      parseDateTime tz jsParse now s = now) ∧
    parseDurationToMinutes "2 hours" = 120 ∧
    parseDurationToMinutes "45 minutes" = 45 ∧
    parseDurationToMinutes "garbage" = 60 := by
  refine ⟨?_, ?_, ?_, by decide, by decide, by decide⟩
  · intro s h
    unfold parseDurationToMinutes
    rw [h]
  · intro tz d s hr h1 h2 h3
    simp [parseTimeRange, hr, h1, h2, h3]
  · intro tz jsParse now s h1 h2 h3 h4
    simp [parseDateTime, h1, h2, h3, h4]

/-- Witness for C8: the three defaults at concrete unparseable inputs. -/
theorem parsers_never_fail_defaults_witness :
    parseDurationToMinutes "soon" = 60 ∧
    parseTimeRange 0 "whenever" 0 = (setHoursLocal 0 0 9 0, setHoursLocal 0 0 17 0) ∧
    parseDateTime 0 (fun _ => none) 12345 "xyz" = 12345 :=
  ⟨parsers_never_fail_defaults.1 "soon" (by decide),
   parsers_never_fail_defaults.2.1 0 0 "whenever" (by decide) (by decide) (by decide)
     (by decide),
   parsers_never_fail_defaults.2.2.1 0 (fun _ => none) 12345 "xyz" (by decide)
     (by decide) rfl (by decide)⟩

/-- C2: against an existing event with a precise span (s, t): a request
supplying only a new start keeps the original duration t − s (the new end is
the parsed new start plus it); only a new end keeps the original start; no
new time carries both originals over; and an explicit duration together with
a new start sets the end to the parsed new start plus that duration. -/
theorem update_time_preservation (tz : Int) (jsParse : String → Option Int)
    (now : Int) (args : FnArgs) (existing : CalendarEvent) (s t : Int)
    (hs : existing.start.dateTime = some s) (ht : existing.«end».dateTime = some t) :
    (truthy args.startTime = true → truthy args.endTime = false →
      truthy args.duration = false →
      (buildUpdatePayload tz jsParse now args existing).start =
        some ⟨some (parseDateTime tz jsParse now (args.startTime.getD "")), none⟩ ∧
      (buildUpdatePayload tz jsParse now args existing).«end» =
        some ⟨some (parseDateTime tz jsParse now (args.startTime.getD "") + (t - s)),
          none⟩) ∧
    (truthy args.startTime = false → truthy args.endTime = true →
      (buildUpdatePayload tz jsParse now args existing).start = some existing.start ∧
      (buildUpdatePayload tz jsParse now args existing).«end» =
        some ⟨some (parseDateTime tz jsParse now (args.endTime.getD "")), none⟩) ∧
    (truthy args.startTime = false → truthy args.endTime = false →
      (buildUpdatePayload tz jsParse now args existing).start = some existing.start ∧
      (buildUpdatePayload tz jsParse now args existing).«end» = some existing.«end») ∧
    (truthy args.startTime = true → truthy args.duration = true →
      (buildUpdatePayload tz jsParse now args existing).start =
        some ⟨some (parseDateTime tz jsParse now (args.startTime.getD "")), none⟩ ∧
      (buildUpdatePayload tz jsParse now args existing).«end» =
        some ⟨some (parseDateTime tz jsParse now (args.startTime.getD "") +
          (parseDurationToMinutes (args.duration.getD "") : Int) * 60000), none⟩) := by
  refine ⟨?_, ?_, ?_, ?_⟩
  · intro h1 h2 h3
    simp [buildUpdatePayload, hs, ht, h1, h2, h3]
  · intro h1 h2
    simp [buildUpdatePayload, hs, ht, h1, h2]
  · intro h1 h2
    simp [buildUpdatePayload, hs, ht, h1, h2]
  · intro h1 h2
    simp [buildUpdatePayload, hs, ht, h1, h2]

/-- Witness for C2: "Team Sync" 10:00–10:30 updated with only the new start
"14:00" yields 14:00–14:30, the 30-minute duration preserved. -/
theorem update_time_preservation_witness :
    (buildUpdatePayload 0 (fun _ => none) 0 newStartOnlyArgs teamSync).start =
      some ⟨some 50400000, none⟩ ∧
    (buildUpdatePayload 0 (fun _ => none) 0 newStartOnlyArgs teamSync).«end» =
      some ⟨some 52200000, none⟩ := by
  have h := (update_time_preservation 0 (fun _ => none) 0 newStartOnlyArgs teamSync
    36000000 37800000 rfl rfl).1 rfl rfl rfl
  exact ⟨h.1.trans (by decide), h.2.trans (by decide)⟩

/-- C6 (code bug): a request carrying both a new start and a new end (and no
duration) loses the end — the payload's `start` is the parsed new start but
its `end` field is never assigned (`none`), because the start branch only
sets `end` when neither `endTime` nor `duration` is present and the
`else if (args.endTime)` branch is skipped; the claim (and the merge rule of
the spec) says the end should be the parsed new end. -/
theorem update_both_times_drops_end :
    truthy bothTimesArgs.endTime = true ∧
    (buildUpdatePayload 0 (fun _ => none) 0 bothTimesArgs teamSync).«end» = none ∧
    (buildUpdatePayload 0 (fun _ => none) 0 bothTimesArgs teamSync).start =
      some ⟨some 50400000, none⟩ := by
  exact ⟨rfl, by decide, by decide⟩

/-- C4: resolution is strictly staged — the case-insensitive exact-title
stage, the bidirectional substring stage and the time-of-day stage each
decide the outcome only when every earlier stage produced zero matches; at
the first stage with matches, exactly one match is Unique and two or more
are Ambiguous carrying the full candidate list; a falsy (empty or missing)
query is NotFound without any stage running; and concretely, over
"Team Sync" and "Sync with Bob", the query "sync" is Ambiguous with both
while "Team Sync" is Unique via the exact stage. -/
theorem resolver_strictly_staged (tz : Int) (q : String)
    (events : List CalendarEvent) (hq : (q == "") = false) :
    (∀ e, exactMatches (lowerStr q) events = [e] →
      resolveEvent tz (some q) events = .found e.id ("Found event: " ++ e.summary)) ∧
    (∀ a b es, exactMatches (lowerStr q) events = a :: b :: es →
      resolveEvent tz (some q) events =
        .multipleFound (a :: b :: es) "exact title matches") ∧
    (exactMatches (lowerStr q) events = [] →
      (∀ e, subMatches (lowerStr q) events = [e] →
        resolveEvent tz (some q) events = .found e.id ("Found event: " ++ e.summary)) ∧
      (∀ a b es, subMatches (lowerStr q) events = a :: b :: es →
        resolveEvent tz (some q) events =
          .multipleFound (a :: b :: es) "partial title matches") ∧
      (subMatches (lowerStr q) events = [] →
        (∀ e, findEventsByTime tz q events = [e] →
          resolveEvent tz (some q) events = .found e.id ("Found event: " ++ e.summary)) ∧
        (∀ a b es, findEventsByTime tz q events = a :: b :: es →
          resolveEvent tz (some q) events =
            .multipleFound (a :: b :: es) "time matches") ∧
        (findEventsByTime tz q events = [] →
          resolveEvent tz (some q) events =
            .notFound ("❌ I couldn't find any events matching \"" ++ q ++
              "\". Try being more specific with the event title or time.")))) ∧
    resolveEvent tz (some "") events =
      .notFound "❌ Please specify which event you want to modify. You can mention the event title, time, or describe the event." ∧
    resolveEvent tz none events =
      .notFound "❌ Please specify which event you want to modify. You can mention the event title, time, or describe the event." ∧
    resolveEvent tz (some "sync") [teamSync, syncBob] =
      .multipleFound [teamSync, syncBob] "partial title matches" ∧
    resolveEvent tz (some "Team Sync") [teamSync, syncBob] =
      .found "id1" "Found event: Team Sync" := by
  refine ⟨?_, ?_, ?_, rfl, rfl, rfl, rfl⟩
  · intro e h
    simp [resolveEvent, truthy, hq, h]
  · intro a b es h
    simp [resolveEvent, truthy, hq, h]
  · intro hex
    refine ⟨?_, ?_, ?_⟩
    · intro e h
      simp [resolveEvent, truthy, hq, hex, h]
    · intro a b es h
      simp [resolveEvent, truthy, hq, hex, h]
    · intro hsub
      refine ⟨?_, ?_, ?_⟩
      · intro e h
        simp [resolveEvent, truthy, hq, hex, hsub, h]
      · intro a b es h
        simp [resolveEvent, truthy, hq, hex, hsub, h]
      · intro ht
        simp [resolveEvent, truthy, hq, hex, hsub, ht]

/-- Witness for C4: the two concrete staging outcomes of the spec example. -/
theorem resolver_strictly_staged_witness :
    resolveEvent 0 (some "sync") [teamSync, syncBob] =
      .multipleFound [teamSync, syncBob] "partial title matches" ∧
    resolveEvent 0 (some "Team Sync") [teamSync, syncBob] =
      .found "id1" "Found event: Team Sync" :=
  ⟨(resolver_strictly_staged 0 "sync" [teamSync, syncBob] (by decide)).2.2.2.2.2.1,
   (resolver_strictly_staged 0 "Team Sync" [teamSync, syncBob] (by decide)).2.2.2.2.2.2⟩

/-- C9: the identification string of an update/delete — whichever of
eventId, eventTitle or summary supplied it — is resolved only by title and
start-time-of-day matching, never compared with the events' identifier
field: whenever it matches no title exactly, no title by substring, and no
start hour:minute, resolution is NotFound, and the update/delete outcome is
that failure, with no condition whatsoever on the events' ids (the supplied
string may equal a backend identifier, as the witness shows). -/
theorem resolution_never_uses_ids (tz : Int) (q : String)
    (events : List CalendarEvent) (hq : (q == "") = false)
    (hexact : exactMatches (lowerStr q) events = [])
    (hsub : subMatches (lowerStr q) events = [])
    (htime : findEventsByTime tz q events = []) :
    resolveEvent tz (some q) events =
      .notFound ("❌ I couldn't find any events matching \"" ++ q ++
        "\". Try being more specific with the event title or time.") ∧
    (∀ args : FnArgs, jsOr (jsOr args.eventId args.eventTitle) args.summary = some q →
      (validateEventUpdate args).isValid = true →
      updateCalendarEventOutcome tz args events =
        .resolutionFailed (.notFound ("❌ I couldn't find any events matching \"" ++ q ++
          "\". Try being more specific with the event title or time."))) ∧
    (∀ args : FnArgs, jsOr (jsOr args.eventId args.eventTitle) args.summary = some q →
      (validateEventDelete args).isValid = true →
      deleteCalendarEventOutcome tz args events =
        .resolutionFailed (.notFound ("❌ I couldn't find any events matching \"" ++ q ++
          "\". Try being more specific with the event title or time."))) := by
  have h1 : resolveEvent tz (some q) events =
      .notFound ("❌ I couldn't find any events matching \"" ++ q ++
        "\". Try being more specific with the event title or time.") := by
    simp [resolveEvent, truthy, hq, hexact, hsub, htime]
  refine ⟨h1, ?_, ?_⟩
  · intro args hid hv
    simp [updateCalendarEventOutcome, hv, hid, h1]
  · intro args hid hv
    simp [deleteCalendarEventOutcome, hv, hid, h1]

/-- Witness for C9: "id1" is the actual backend identifier of "Team Sync",
yet an update identified by `eventId := "id1"` resolves NotFound because
resolution never consults the id field. -/
theorem resolution_never_uses_ids_witness :
    teamSync.id = "id1" ∧
    updateCalendarEventOutcome 0
        ({ eventId := some "id1", startTime := some "3pm" } : FnArgs) [teamSync] =
      .resolutionFailed (.notFound ("❌ I couldn't find any events matching \"id1\". Try being more specific with the event title or time.")) :=
  ⟨rfl,
   (resolution_never_uses_ids 0 "id1" [teamSync] (by decide) (by decide) (by decide)
      (by decide)).2.1
     ({ eventId := some "id1", startTime := some "3pm" } : FnArgs) rfl rfl⟩

/-- Helper: every slot the sweep emits has exact length `D`, starts at or
after the entry cursor, avoids every span of the (sorted) list, is anchored
at the entry cursor or at some span's end, and ends no later than some
span's start. -/
theorem sweep_mem_spec (D : Int) (ps : List (Int × Int)) (c : Int)
    (hsorted : ps.Pairwise (fun a b => a.1 ≤ b.1)) :
    ∀ sl ∈ sweep D c ps,
      sl.«end» - sl.start = D ∧ c ≤ sl.start ∧
      (∀ p ∈ ps, min sl.«end» p.2 ≤ max sl.start p.1) ∧
      (sl.start = c ∨ ∃ p ∈ ps, sl.start = p.2) ∧
      (∃ p ∈ ps, sl.«end» ≤ p.1) := by
  induction ps generalizing c with
  | nil => simp [sweep]
  | cons hd rest ih =>
      obtain ⟨s, t⟩ := hd
      rw [List.pairwise_cons] at hsorted
      obtain ⟨hhead, hrest⟩ := hsorted
      intro sl hsl
      rw [sweep] at hsl
      rcases List.mem_append.mp hsl with h | h
      · by_cases hc : D ≤ s - c
        · rw [if_pos hc, List.mem_singleton] at h
          subst h
          refine ⟨by show c + D - c = D; omega, le_refl c, ?_, Or.inl rfl,
            ⟨(s, t), List.mem_cons_self _ _, by show c + D ≤ s; omega⟩⟩
          intro p hp
          rcases List.mem_cons.mp hp with hp | hp
          · subst hp
            have h1 : min (c + D) t ≤ c + D := min_le_left _ _
            have h2 : s ≤ max c s := le_max_right _ _
            show min (c + D) t ≤ max c s
            omega
          · have hsp : s ≤ p.1 := hhead p hp
            have h1 : min (c + D) p.2 ≤ c + D := min_le_left _ _
            have h2 : p.1 ≤ max c p.1 := le_max_right _ _
            show min (c + D) p.2 ≤ max c p.1
            omega
        · rw [if_neg hc] at h
          simp at h
      · obtain ⟨hlen, hge, hover, hanchor, hendb⟩ := ih (max c t) hrest sl h
        have hct : c ≤ max c t := le_max_left _ _
        refine ⟨hlen, le_trans hct hge, ?_, ?_, ?_⟩
        · intro p hp
          rcases List.mem_cons.mp hp with hp | hp
          · subst hp
            have h1 : t ≤ max c t := le_max_right _ _
            have h2 : min sl.«end» t ≤ t := min_le_right _ _
            have h3 : sl.start ≤ max sl.start s := le_max_left _ _
            omega
          · exact hover p hp
        · rcases hanchor with h1 | ⟨p, hp, h1⟩
          · rcases max_choice c t with hm | hm
            · exact Or.inl (by rw [h1, hm])
            · exact Or.inr ⟨(s, t), List.mem_cons_self _ _, by rw [h1, hm]⟩
          · exact Or.inr ⟨p, List.mem_cons_of_mem _ hp, h1⟩
        · obtain ⟨p, hp, h1⟩ := hendb
          exact ⟨p, List.mem_cons_of_mem _ hp, h1⟩

/-- Helper: the sweep emits at most one slot per event. -/
theorem sweep_length_le (D : Int) (ps : List (Int × Int)) (c : Int) :
    (sweep D c ps).length ≤ ps.length := by
  induction ps generalizing c with
  | nil => simp [sweep]
  | cons hd rest ih =>
      obtain ⟨s, t⟩ := hd
      rw [sweep, List.length_append]
      have := ih (max c t)
      by_cases hc : D ≤ s - c
      · rw [if_pos hc]
        simp only [List.length_singleton, List.length_cons, List.length_nil]
        omega
      · rw [if_neg hc]
        simp only [List.length_nil, List.length_cons]
        omega

/-- Helper: the final cursor dominates `dayStart` and every span end, and is
one of them. -/
theorem finalCursor_spec (dayStart : Int) (ps : List (Int × Int)) :
    dayStart ≤ finalCursor dayStart ps ∧
    (∀ p ∈ ps, p.2 ≤ finalCursor dayStart ps) ∧
    (finalCursor dayStart ps = dayStart ∨ ∃ p ∈ ps, finalCursor dayStart ps = p.2) := by
  induction ps generalizing dayStart with
  | nil => simp [finalCursor]
  | cons hd rest ih =>
      obtain ⟨s, t⟩ := hd
      have hstep : finalCursor dayStart ((s, t) :: rest) = finalCursor (max dayStart t) rest := rfl
      obtain ⟨h1, h2, h3⟩ := ih (max dayStart t)
      rw [hstep]
      refine ⟨le_trans (le_max_left _ _) h1, ?_, ?_⟩
      · intro p hp
        rcases List.mem_cons.mp hp with hp | hp
        · subst hp
          exact le_trans (le_max_right _ _) h1
        · exact h2 p hp
      · rcases h3 with h | ⟨p, hp, h⟩
        · rcases max_choice dayStart t with hm | hm
          · exact Or.inl (by rw [h, hm])
          · exact Or.inr ⟨(s, t), List.mem_cons_self _ _, by rw [h, hm]⟩
        · exact Or.inr ⟨p, List.mem_cons_of_mem _ hp, h⟩

/-- Helper: the sorted span list is sorted by start. -/
theorem sortedSpans_pairwise (events : List CalendarEvent) :
    (sortedSpans events).Pairwise (fun a b : Int × Int => a.1 ≤ b.1) := by
  unfold sortedSpans
  haveI : IsTotal (Int × Int) (fun a b : Int × Int => a.1 ≤ b.1) :=
    ⟨fun a b => le_total a.1 b.1⟩
  haveI : IsTrans (Int × Int) (fun a b : Int × Int => a.1 ≤ b.1) :=
    ⟨fun _ _ _ hab hbc => le_trans hab hbc⟩
  exact List.sorted_insertionSort _ _

/-- Helper: membership in the sorted span list. -/
theorem mem_sortedSpans {events : List CalendarEvent} {p : Int × Int} :
    p ∈ sortedSpans events ↔
      ∃ e ∈ events, e.start.dateTime.isSome = true ∧
        p = (e.start.dateTime.getD 0, e.«end».dateTime.getD 0) := by
  unfold sortedSpans
  rw [(List.perm_insertionSort _ _).mem_iff, List.mem_map]
  constructor
  · rintro ⟨e, he, rfl⟩
    have hf := List.mem_filter.mp he
    exact ⟨e, hf.1, hf.2, rfl⟩
  · rintro ⟨e, he, hs, rfl⟩
    exact ⟨e, List.mem_filter.mpr ⟨he, hs⟩, rfl⟩

/-- Helper: sorting preserves the filtered length. -/
theorem sortedSpans_length (events : List CalendarEvent) :
    (sortedSpans events).length =
      (events.filter (fun e => e.start.dateTime.isSome)).length := by
  unfold sortedSpans
  rw [(List.perm_insertionSort _ _).length_eq, List.length_map]

/-- C1 (amended): for events satisfying the data-model invariant (a precise
start implies a precise end), every emitted slot has length exactly
`D` minutes, starts at or after `dayStart`, intersects no event with a
precise span (the overlap test `max(starts) < min(ends)` fails), and is
anchored at `dayStart` or at the end instant of some input event; at most
one slot is emitted per gap (the slot count is bounded by the number of
precise-start events plus one); and every slot also ends by `dayEnd`
*provided* every precise event starts no later than `dayEnd` — without that
proviso a slot may overrun `dayEnd`, which is what the counterexample
exhibits and all the amendment forces. -/
theorem free_slots_spec (events : List CalendarEvent) (dayStart dayEnd D : Int)
    (hwf : ∀ e ∈ events, e.start.dateTime.isSome = true →
      e.«end».dateTime.isSome = true) :
    (∀ sl ∈ findFreeSlots events dayStart dayEnd D,
      sl.«end» - sl.start = D * 60000 ∧
      dayStart ≤ sl.start ∧
      (∀ e ∈ events, ∀ s t : Int, e.start.dateTime = some s →
        e.«end».dateTime = some t → min sl.«end» t ≤ max sl.start s) ∧
      (sl.start = dayStart ∨ ∃ e ∈ events, e.«end».dateTime = some sl.start)) ∧
    ((∀ e ∈ events, ∀ s : Int, e.start.dateTime = some s → s ≤ dayEnd) →
      ∀ sl ∈ findFreeSlots events dayStart dayEnd D, sl.«end» ≤ dayEnd) ∧
    (findFreeSlots events dayStart dayEnd D).length ≤
      (events.filter (fun e => e.start.dateTime.isSome)).length + 1 := by
  have hpw := sortedSpans_pairwise events
  have hsw := sweep_mem_spec (D * 60000) (sortedSpans events) dayStart hpw
  have hfc := finalCursor_spec dayStart (sortedSpans events)
  have pair_of_event : ∀ e ∈ events, ∀ s t : Int, e.start.dateTime = some s →
      e.«end».dateTime = some t → (s, t) ∈ sortedSpans events := by
    intro e he s t hs ht
    rw [mem_sortedSpans]
    exact ⟨e, he, by simp [hs], by simp [hs, ht]⟩
  have event_of_pair : ∀ p ∈ sortedSpans events, ∃ e ∈ events,
      e.start.dateTime = some p.1 ∧ e.«end».dateTime = some p.2 := by
    intro p hp
    rw [mem_sortedSpans] at hp
    obtain ⟨e, he, hs, rfl⟩ := hp
    obtain ⟨s, hs'⟩ := Option.isSome_iff_exists.mp hs
    obtain ⟨t, ht'⟩ := Option.isSome_iff_exists.mp (hwf e he hs)
    exact ⟨e, he, by simp [hs'], by simp [ht']⟩
  have hmem : ∀ sl : TimeSlot, sl ∈ findFreeSlots events dayStart dayEnd D ↔
      (sl ∈ sweep (D * 60000) dayStart (sortedSpans events) ∨
        (D * 60000 ≤ dayEnd - finalCursor dayStart (sortedSpans events) ∧
          sl = ⟨finalCursor dayStart (sortedSpans events),
            finalCursor dayStart (sortedSpans events) + D * 60000⟩)) := by
    intro sl
    unfold findFreeSlots
    rw [List.mem_append]
    by_cases hC : D * 60000 ≤ dayEnd - finalCursor dayStart (sortedSpans events)
    · rw [if_pos hC, List.mem_singleton]
      tauto
    · rw [if_neg hC]
      simp only [List.not_mem_nil, or_false]
      tauto
  refine ⟨?_, ?_, ?_⟩
  · intro sl hsl
    rcases (hmem sl).mp hsl with h | ⟨hC, rfl⟩
    · obtain ⟨hlen, hge, hover, hanchor, _⟩ := hsw sl h
      refine ⟨hlen, hge, ?_, ?_⟩
      · intro e he s t hs ht
        exact hover (s, t) (pair_of_event e he s t hs ht)
      · rcases hanchor with h1 | ⟨p, hp, h1⟩
        · exact Or.inl h1
        · obtain ⟨e, he, _, ht⟩ := event_of_pair p hp
          exact Or.inr ⟨e, he, by rw [ht, h1]⟩
    · obtain ⟨h1, h2, h3⟩ := hfc
      refine ⟨by
        show finalCursor dayStart (sortedSpans events) + D * 60000 -
          finalCursor dayStart (sortedSpans events) = D * 60000
        omega, h1, ?_, ?_⟩
      · intro e he s t hs ht
        have hp := pair_of_event e he s t hs ht
        have h4 : t ≤ finalCursor dayStart (sortedSpans events) := h2 (s, t) hp
        have h5 : min (finalCursor dayStart (sortedSpans events) + D * 60000) t ≤ t :=
          min_le_right _ _
        have h6 : finalCursor dayStart (sortedSpans events) ≤
            max (finalCursor dayStart (sortedSpans events)) s := le_max_left _ _
        show min (finalCursor dayStart (sortedSpans events) + D * 60000) t ≤
          max (finalCursor dayStart (sortedSpans events)) s
        omega
      · rcases h3 with h | ⟨p, hp, h⟩
        · exact Or.inl h
        · obtain ⟨e, he, _, ht⟩ := event_of_pair p hp
          exact Or.inr ⟨e, he, by rw [ht, ← h]⟩
  · intro hend sl hsl
    rcases (hmem sl).mp hsl with h | ⟨hC, rfl⟩
    · obtain ⟨_, _, _, _, hendb⟩ := hsw sl h
      obtain ⟨p, hp, hle⟩ := hendb
      obtain ⟨e, he, hs, _⟩ := event_of_pair p hp
      exact le_trans hle (hend e he p.1 hs)
    · show finalCursor dayStart (sortedSpans events) + D * 60000 ≤ dayEnd
      omega
  · unfold findFreeSlots
    rw [List.length_append]
    have hs1 := sweep_length_le (D * 60000) (sortedSpans events) dayStart
    have hs2 := sortedSpans_length events
    by_cases hC : D * 60000 ≤ dayEnd - finalCursor dayStart (sortedSpans events)
    · rw [if_pos hC]
      simp only [List.length_singleton]
      omega
    · rw [if_neg hC]
      simp only [List.length_nil]
      omega

/-- Witness for C1: one event 10:00–11:00 inside the 9:00–17:00 window with
D = 60; all events start by `dayEnd`, so the second slot (11:00–12:00) ends
within the window, and at most two slots exist. -/
theorem free_slots_spec_witness :
    (⟨39600000, 43200000⟩ : TimeSlot).«end» ≤ 61200000 ∧
    (findFreeSlots [tenToElevenEvt] 32400000 61200000 60).length ≤ 2 := by
  have h := free_slots_spec [tenToElevenEvt] 32400000 61200000 60 (by decide)
  refine ⟨?_, ?_⟩
  · exact h.2.1 (by decide) ⟨39600000, 43200000⟩ (by decide)
  · exact le_trans h.2.2 (by decide)

/-- C1 counterexample: in the 8:00–12:00 window with D = 60 and precise
events 11:00–11:30 and 20:00–21:00 (both on the day, the second after the
window end), the finder emits the slot 11:30–12:30, which overruns
`dayEnd` = 12:00 — refuting "every emitted slot lies within
[dayStart, dayEnd]" for arbitrary event lists. -/
theorem free_slots_within_day_counterexample :
    isPreciseSpan midMorningEvt = true ∧ isPreciseSpan eveningEvt = true ∧
    findFreeSlots [midMorningEvt, eveningEvt] 28800000 43200000 60 =
      [⟨28800000, 32400000⟩, ⟨41400000, 45000000⟩] ∧
    ∃ sl ∈ findFreeSlots [midMorningEvt, eveningEvt] 28800000 43200000 60,
      ¬(sl.«end» ≤ 43200000) :=
  ⟨rfl, rfl, by decide, ⟨⟨41400000, 45000000⟩, by decide, by decide⟩⟩

end CalendarAgent
